import Mathlib

/-!
Verification of the PLY mesh reader (`src/Mod/Mesh/App/Core/IO/ReaderPLY.cpp`)

A shallow embedding of the PLY reader: the header parser, the schema
validators, the ASCII body decoder and the binary body decoder, together
with theorems settling the frozen claims about them.

Conventions of the embedding:
* C++ `std::string` lines are modelled as `List Char`; the byte stream
  consumed by the binary decoder is modelled as `List Nat` (one entry per
  byte).
* Machine integers are modelled as `Nat`/`Int`; stored float values are
  modelled as `ℚ` (exact arithmetic standing in for the float32 store).
* Fallible operations return `Option`; `none` is the C++ `return false`.
* `Base::InputStream` (declared in `Base/Stream.h`, outside the sources
  at hand) is modelled from the spec: each typed read consumes the fixed
  byte width of its numeric kind and decodes with the declared byte order.
-/

namespace ReaderPLY

/-- The numeric kinds of the PLY property type table (`ReaderPLY::Number`). -/
inductive Number where
  | int8 | uint8 | int16 | uint16 | int32 | uint32 | float32 | float64
  deriving DecidableEq, Repr

/-- Semantic property roles (`ReaderPLY::Property`). -/
inductive PropKind where
  | coord_x | coord_y | coord_z | color_r | color_g | color_b | generic
  deriving DecidableEq, Repr

/-- Declared formats (`ReaderPLY::Format`). -/
inductive FormatMode where
  | ascii | binary_big_endian | binary_little_endian
  deriving DecidableEq, Repr

/-- Byte order selected by `LoadBinary` from the format mode. -/
inductive ByteOrder where
  | le | be
  deriving DecidableEq, Repr

/-- Little-endian byte decoding: first byte is least significant. -/
def decodeLE (bs : List Nat) : Nat :=
  bs.foldr (fun b acc => b + 256 * acc) 0

/-- Big-endian byte decoding: first byte is most significant. -/
def decodeBE (bs : List Nat) : Nat :=
  bs.foldl (fun acc b => 256 * acc + b) 0

/-- Decode an unsigned value from bytes with the given byte order. -/
def decodeUInt (bo : ByteOrder) (bs : List Nat) : Nat :=
  match bo with
  | .le => decodeLE bs
  | .be => decodeBE bs

/-- Modelled from the spec: `Base::InputStream` reads a fixed number of
bytes from the underlying stream; reading past the end fails. -/
def readBytes (w : Nat) (s : List Nat) : Option (List Nat × List Nat) :=
  if w ≤ s.length then some (s.take w, s.drop w) else none

/-- Byte width of each numeric kind, as read by `Base::InputStream`. -/
def byteWidth : Number → Nat
  | .int8 => 1
  | .uint8 => 1
  | .int16 => 2
  | .uint16 => 2
  | .int32 => 4
  | .uint32 => 4
  | .float32 => 4
  | .float64 => 8

/-- One `FacePropertySpec` entry consumed by the binary `ReadFaces`
(`ReaderPLY.cpp:586-629`): integer kinds are read and discarded at their
fixed width; the `float32`/`float64` cases first read an 8-bit count `n`
and then discard `n` values of that width. -/
def skipFaceProp (bo : ByteOrder) (p : Number) (s : List Nat) : Option (List Nat) :=
  match p with
  | .float32 => do
      let (nb, s1) ← readBytes 1 s
      let n := decodeUInt bo nb
      let (_, s2) ← readBytes (4 * n) s1
      pure s2
  | .float64 => do
      let (nb, s1) ← readBytes 1 s
      let n := decodeUInt bo nb
      let (_, s2) ← readBytes (8 * n) s1
      pure s2
  | p => do
      let (_, s1) ← readBytes (byteWidth p) s
      pure s1

/-- Consume every `FacePropertySpec` entry in declared order. -/
def skipFaceProps (bo : ByteOrder) (fps : List Number) (s : List Nat) :
    Option (List Nat) :=
  match fps with
  | [] => some s
  | p :: rest => (skipFaceProp bo p s).bind (skipFaceProps bo rest)

/-- One binary face record (`ReaderPLY::ReadFaces(Base::InputStream&)`,
`ReaderPLY.cpp:579-630`): read an unsigned 8-bit count `n`; if `n == 3`
read three unsigned 32-bit indices, append the facet only when all three
are strictly below `vc`, then consume the `FacePropertySpec` entries; if
`n != 3` nothing further is read for this record. -/
def readFaceRecord (bo : ByteOrder) (vc : Nat) (fps : List Number) (s : List Nat) :
    Option (List (Nat × Nat × Nat) × List Nat) := do
  let (nb, s1) ← readBytes 1 s
  let n := decodeUInt bo nb
  if n = 3 then
    let (b1, s2) ← readBytes 4 s1
    let (b2, s3) ← readBytes 4 s2
    let (b3, s4) ← readBytes 4 s3
    let f1 := decodeUInt bo b1
    let f2 := decodeUInt bo b2
    let f3 := decodeUInt bo b3
    let kept := if f1 < vc ∧ f2 < vc ∧ f3 < vc then [(f1, f2, f3)] else []
    let s5 ← skipFaceProps bo fps s4
    pure (kept, s5)
  else
    pure ([], s1)

/-- Counterfactual variant of `readFaceRecord` in which an `n = 3` facet
is always kept, i.e. the bounds check against the vertex count is dropped.
It is used to state that the real decoder advances the cursor exactly "as
if the facet had been kept". -/
def readFaceRecordKeep (bo : ByteOrder) (fps : List Number) (s : List Nat) :
    Option (List (Nat × Nat × Nat) × List Nat) := do
  let (nb, s1) ← readBytes 1 s
  let n := decodeUInt bo nb
  if n = 3 then
    let (b1, s2) ← readBytes 4 s1
    let (b2, s3) ← readBytes 4 s2
    let (b3, s4) ← readBytes 4 s3
    let f1 := decodeUInt bo b1
    let f2 := decodeUInt bo b2
    let f3 := decodeUInt bo b3
    let s5 ← skipFaceProps bo fps s4
    pure ([(f1, f2, f3)], s5)
  else
    pure ([], s1)

/-- The binary face loop (`for (i = 0; i < f_count; i++)` in
`ReaderPLY::ReadFaces(Base::InputStream&)`). -/
def readFacesB (bo : ByteOrder) (vc : Nat) (fps : List Number) :
    Nat → List Nat → Option (List (Nat × Nat × Nat) × List Nat)
  | 0, s => some ([], s)
  | i + 1, s => do
      let (fs, s1) ← readFaceRecord bo vc fps s
      let (rest, s2) ← readFacesB bo vc fps i s1
      pure (fs ++ rest, s2)

/-- Follows the claim's words, for comparison with `readFaceRecord`: after
the count byte and the (possibly skipped) index triple, every entry of
`FacePropertySpec` is consumed in declared order in BOTH the `n = 3` and
the `n ≠ 3` cases. -/
def claimedFaceRecordRest (bo : ByteOrder) (fps : List Number) (s : List Nat) :
    Option (List Nat) := do
  let (nb, s1) ← readBytes 1 s
  let n := decodeUInt bo nb
  let s2 ← if n = 3 then do
      let (_, t1) ← readBytes 4 s1
      let (_, t2) ← readBytes 4 t1
      let (_, t3) ← readBytes 4 t2
      pure t3
    else
      pure s1
  skipFaceProps bo fps s2

/-! ## Character-level stream primitives (header lines are `std::istringstream`
with `skipws` unset). -/

/-- The C `isspace` classification. -/
def isSpaceC (c : Char) : Bool :=
  c == ' ' || c == '\t' || c == '\n' || c == '\x0b' || c == '\x0c' || c == '\r'

/-- The model of `str >> c` for a `char` with `skipws` unset: read exactly one
character; at end of stream the extraction fails and the target keeps its
zero initializer. -/
def readChar : List Char → Char × List Char
  | [] => ('\x00', [])
  | c :: cs => (c, cs)

/-- The model of `str >> std::ws`. -/
def skipWs (s : List Char) : List Char := s.dropWhile (fun c => isSpaceC c)

/-- The model of `str >> tok` for a `std::string` target at a non-whitespace position:
the characters up to the next whitespace. -/
def readToken (s : List Char) : List Char × List Char :=
  (s.takeWhile (fun c => !isSpaceC c), s.dropWhile (fun c => !isSpaceC c))

/-- A digit run folded into a `Nat`. -/
def natOfDigits (ds : List Char) : Nat :=
  ds.foldl (fun acc c => 10 * acc + (c.toNat - '0'.toNat)) 0

/-- The model of `str >> count` for a `std::size_t` target: an optional sign followed
by a digit run; a `-` sign wraps modulo `2^64` as C++ unsigned extraction
does; absent digits leave the zero initializer. Literals above `2^64` are
modelled modulo `2^64`. -/
def parseCount (s : List Char) : Nat :=
  match s with
  | '-' :: rest =>
      let ds := rest.takeWhile Char.isDigit
      if ds = [] then 0 else (2 ^ 64 - natOfDigits ds % 2 ^ 64) % 2 ^ 64
  | '+' :: rest => natOfDigits (rest.takeWhile Char.isDigit) % 2 ^ 64
  | _ => natOfDigits (s.takeWhile Char.isDigit) % 2 ^ 64

/-! ## Data model -/

/-- The model of `MeshIO::Binding` of the material sink. -/
inductive Binding where
  | overall | per_vertex | per_face
  deriving DecidableEq, Repr

/-- The caller-owned material sink (`Material*`). -/
structure Material where
  binding : Binding
  diffuseColor : List (ℚ × ℚ × ℚ)
  deriving DecidableEq, Repr

/-- The reader's accumulated state (the data members of `ReaderPLY`).
`bodyEntered` and `handoffDone` are instrumentation: they record that a
body decoder was entered and that `CleanupMesh` handed the arrays to the
external cleanup collaborator. -/
structure State where
  format : FormatMode
  v_count : Nat
  f_count : Nat
  vertex_props : List (PropKind × Number)
  face_props : List Number
  meshPoints : List (ℚ × ℚ × ℚ)
  meshFacets : List (Nat × Nat × Nat)
  material : Option Material
  bodyEntered : Bool
  handoffDone : Bool
  deriving DecidableEq, Repr

/-- Modelled from the spec: the reader's freshly constructed state (the
member initializers live in `ReaderPLY.h`, outside the sources at hand):
no schema, zero counts, empty containers; the caller passes the optional
material sink. -/
def initState (mat : Option Material) : State :=
  { format := .ascii, v_count := 0, f_count := 0, vertex_props := [], face_props := [],
    meshPoints := [], meshFacets := [], material := mat, bodyEntered := false,
    handoffDone := false }

/-! ## Header parsing -/

/-- The format-name table of `ReaderPLY::ReadFormat`. -/
def formatOfName (name : List Char) : Option FormatMode :=
  if name = "ascii".data then some .ascii
  else if name = "binary_big_endian".data then some .binary_big_endian
  else if name = "binary_little_endian".data then some .binary_little_endian
  else none

/-- The model of `ReaderPLY::ReadFormat` (`ReaderPLY.cpp:69-95`) on the remainder of a
`format` line: one separator character, the format-name token, one
separator character, the version token; both separator characters must be
whitespace; the name must be recognized and the version must equal
`"1.0"`. -/
def readFormat (s : List Char) : Option FormatMode :=
  let p1 := readChar s
  let p2 := readToken (skipWs p1.2)
  let p3 := readChar p2.2
  let p4 := readToken (skipWs p3.2)
  if isSpaceC p1.1 && isSpaceC p3.1 then
    match formatOfName p2.1 with
    | none => none
    | some m => if p4.1 = "1.0".data then some m else none
  else none

/-- The model of `ReaderPLY::ReadElement` (`ReaderPLY.cpp:97-122`): name and count with
whitespace separators; `vertex`/`face` record the count and become the
element context, any other name clears the context. -/
def readElement (st : State) (s : List Char) : Option (State × List Char) :=
  let p1 := readChar s
  let p2 := readToken (skipWs p1.2)
  let p3 := readChar p2.2
  let cnt := parseCount (skipWs p3.2)
  if isSpaceC p1.1 && isSpaceC p3.1 then
    if p2.1 = "vertex".data then some ({st with v_count := cnt}, p2.1)
    else if p2.1 = "face".data then some ({st with f_count := cnt}, p2.1)
    else some (st, [])
  else none

/-- The model of `ReaderPLY::propertyOfName` (`ReaderPLY.cpp:124-146`). -/
def propertyOfName (name : List Char) : PropKind :=
  if name = "x".data then .coord_x
  else if name = "y".data then .coord_y
  else if name = "z".data then .coord_z
  else if name = "red".data ∨ name = "diffuse_red".data then .color_r
  else if name = "green".data ∨ name = "diffuse_green".data then .color_g
  else if name = "blue".data ∨ name = "diffuse_blue".data then .color_b
  else .generic

/-- The property type-token table shared by `ReadVertexProperty` and
`ReadFaceProperty`. -/
def numberOfType (ty : List Char) : Option Number :=
  if ty = "char".data ∨ ty = "int8".data then some .int8
  else if ty = "uchar".data ∨ ty = "uint8".data then some .uint8
  else if ty = "short".data ∨ ty = "int16".data then some .int16
  else if ty = "ushort".data ∨ ty = "uint16".data then some .uint16
  else if ty = "int".data ∨ ty = "int32".data then some .int32
  else if ty = "uint".data ∨ ty = "uint32".data then some .uint32
  else if ty = "float".data ∨ ty = "float32".data then some .float32
  else if ty = "double".data ∨ ty = "float64".data then some .float64
  else none

/-- The model of `ReaderPLY::ReadVertexProperty` (`ReaderPLY.cpp:148-189`): type token
then name token; an unrecognized type fails; otherwise the (role, kind)
pair is appended to the vertex schema. -/
def readVertexPropertyLine (st : State) (s : List Char) : Option State :=
  let p1 := readChar s
  let p2 := readToken (skipWs p1.2)
  let p3 := readChar p2.2
  let name := (readToken (skipWs p3.2)).1
  match numberOfType p2.1 with
  | none => none
  | some num =>
      some {st with vertex_props := st.vertex_props ++ [(propertyOfName name, num)]}

/-- The model of `ReaderPLY::ReadFaceProperty` (`ReaderPLY.cpp:191-244`): an optional
leading `list` token (with its ignored count-type token), then the value
type and the name; the `vertex_indices`/`vertex_index` property is
excluded from the face schema, any other name appends its numeric kind. -/
def readFacePropertyLine (st : State) (s : List Char) : Option State :=
  let p1 := readChar s
  let p2 := readToken (skipWs p1.2)
  let r4 := skipWs p2.2
  let tyName :=
    if p2.1 = "list".data then
      let p5 := readToken r4
      let p6 := readToken (skipWs p5.2)
      let name := (readToken (skipWs p6.2)).1
      (p6.1, name)
    else
      (p2.1, (readToken r4).1)
  if tyName.2 = "vertex_indices".data ∨ tyName.2 = "vertex_index".data then
    some st
  else
    match numberOfType tyName.1 with
    | none => none
    | some num => some {st with face_props := st.face_props ++ [num]}

/-- The model of `ReaderPLY::ReadProperty` (`ReaderPLY.cpp:246-260`): dispatch on the
current element context; outside `vertex`/`face` the line contributes
nothing. -/
def readPropertyLine (st : State) (elem : List Char) (s : List Char) : Option State :=
  if elem = "vertex".data then readVertexPropertyLine st s
  else if elem = "face".data then readFacePropertyLine st s
  else some st

/-- The keyword of a header line: `none` for an all-whitespace line. -/
def headerLineKw (line : List Char) : Option (List Char) :=
  let l := skipWs line
  if l = [] then none else some (readToken l).1

/-- Processing of one header line by `ReaderPLY::ReadHeader`
(`ReaderPLY.cpp:262-296`), except for the `end_header` termination which
the loop itself handles: empty lines and unknown keywords are ignored. -/
def headerStep (st : State) (elem : List Char) (line : List Char) :
    Option (State × List Char) :=
  let l := skipWs line
  if l = [] then some (st, elem)
  else
    let p := readToken l
    if p.1 = "format".data then
      match readFormat p.2 with
      | none => none
      | some m => some ({st with format := m}, elem)
    else if p.1 = "element".data then readElement st p.2
    else if p.1 = "property".data then
      (readPropertyLine st elem p.2).map (fun st' => (st', elem))
    else some (st, elem)

/-- The model of `ReaderPLY::ReadHeader`: process lines until one equals `end_header`
or the lines run out; returns the lines remaining after the header. -/
def readHeader : State → List Char → List (List Char) →
    Option (State × List (List Char))
  | st, _, [] => some (st, [])
  | st, elem, line :: ls =>
    if headerLineKw line = some "end_header".data then some (st, ls)
    else
      match headerStep st elem line with
      | none => none
      | some (st', e') => readHeader st' e' ls

/-- The fold of `headerStep` over a list of lines (no `end_header`
termination), used to express that every line is well formed. -/
def headerSteps : State → List Char → List (List Char) → Option (State × List Char)
  | st, elem, [] => some (st, elem)
  | st, elem, line :: ls =>
    match headerStep st elem line with
    | none => none
    | some (st', e') => headerSteps st' e' ls

/-! ## Schema validation -/

/-- Modelled from the spec: `PropertyComp` is declared in `ReaderPLY.h`
(outside the sources at hand); per the spec's "count entries per role" it
matches a schema entry whose role equals the given role. -/
def propertyComp (p : PropKind × Number) (q : PropKind) : Bool := p.1 == q

/-- The `std::count_if` over the vertex schema used by both validators. -/
def countProp (props : List (PropKind × Number)) (q : PropKind) : Nat :=
  (props.filter (fun p => propertyComp p q)).length

/-- The model of `ReaderPLY::VerifyVertexProperty` (`ReaderPLY.cpp:298-321`). -/
def verifyVertexProperty (props : List (PropKind × Number)) : Bool :=
  countProp props .coord_x == 1 && countProp props .coord_y == 1 &&
    countProp props .coord_z == 1

/-- The total `num_r + num_g + num_b` of `VerifyColorProperty`. -/
def rgbCount (props : List (PropKind × Number)) : Nat :=
  countProp props .color_r + countProp props .color_g + countProp props .color_b

/-- The model of `ReaderPLY::VerifyColorProperty` (`ReaderPLY.cpp:323-359`): the total
of the three color-role counts must be 0 or 3; a total of 3 with a
material sink present activates per-vertex binding. -/
def verifyColorProperty (st : State) : Option State :=
  let rgb := rgbCount st.vertex_props
  if rgb ≠ 0 ∧ rgb ≠ 3 then none
  else if rgb = 3 then
    match st.material with
    | some m => some {st with material := some {m with binding := .per_vertex}}
    | none => some st
  else some st

/-! ## ASCII body decoding

The three `boost::regex` patterns of `ReadVertexes(std::istream&)` are
modelled directly as leftmost searches: `rx_d` is
`(([-+]?[0-9]*)\.?([0-9]+([eE][-+]?[0-9]+)?))\s*`, `rx_s` is
`\b([-+]?[0-9]+)\s*` and `rx_u` is `\b([0-9]+)\s*`. After a match the
code drops `what[0].length()` characters from the FRONT of the line
(`line.substr(what[0].length())`), not from the match position. -/

/-- The `\w` character class of `boost::regex` (ASCII word characters). -/
def isWordChar (c : Char) : Bool := c.isAlphanum || c == '_'

/-- Leftmost search for `rx_u`: a word boundary, a digit run, trailing
whitespace. Returns the captured digit run and the length of `what[0]`. -/
def searchUnsignedAux (prev : Option Char) : List Char → Option (List Char × Nat)
  | [] => none
  | c :: cs =>
    let prevWord := match prev with
      | none => false
      | some p => isWordChar p
    if c.isDigit && !prevWord then
      let ds := c :: cs.takeWhile Char.isDigit
      let r1 := cs.dropWhile Char.isDigit
      let ws := r1.takeWhile isSpaceC
      some (ds, ds.length + ws.length)
    else searchUnsignedAux (some c) cs

/-- Search for `rx_u` from the start of the line. -/
def searchUnsigned (line : List Char) : Option (List Char × Nat) :=
  searchUnsignedAux none line

/-- Leftmost search for `rx_s`: a word boundary, an optional sign (which
can only be matched when a word character precedes it), a digit run and
trailing whitespace. Returns the `lexical_cast<int>` value of `what[1]`
and the length of `what[0]`. -/
def searchSignedAux (prev : Option Char) : List Char → Option (Int × Nat)
  | [] => none
  | c :: cs =>
    let prevWord := match prev with
      | none => false
      | some p => isWordChar p
    if prevWord != isWordChar c then
      if c.isDigit then
        let ds := c :: cs.takeWhile Char.isDigit
        let r1 := cs.dropWhile Char.isDigit
        let ws := r1.takeWhile isSpaceC
        some ((natOfDigits ds : Int), ds.length + ws.length)
      else if (c == '-' || c == '+') &&
          (match cs with | d :: _ => d.isDigit | [] => false) then
        let ds := cs.takeWhile Char.isDigit
        let r1 := cs.dropWhile Char.isDigit
        let ws := r1.takeWhile isSpaceC
        let v : Int := if c == '-' then -(natOfDigits ds : Int) else (natOfDigits ds : Int)
        some (v, 1 + ds.length + ws.length)
      else searchSignedAux (some c) cs
    else searchSignedAux (some c) cs

/-- Search for `rx_s` from the start of the line. -/
def searchSigned (line : List Char) : Option (Int × Nat) :=
  searchSignedAux none line

/-- The optional exponent part `([eE][-+]?[0-9]+)?` of `rx_d`: exponent
value and consumed length, or `none` when it does not match. -/
def expMatch (l : List Char) : Option (Int × Nat) :=
  match l with
  | c :: rest =>
    if c == 'e' || c == 'E' then
      match rest with
      | s :: rest2 =>
        if s == '-' || s == '+' then
          let ds := rest2.takeWhile Char.isDigit
          if ds = [] then none
          else some (if s == '-' then -(natOfDigits ds : Int) else (natOfDigits ds : Int),
            2 + ds.length)
        else
          let ds := rest.takeWhile Char.isDigit
          if ds = [] then none else some ((natOfDigits ds : Int), 1 + ds.length)
      | [] => none
    else none
  | [] => none

/-- Greedy match of the number part of `rx_d` anchored at the current
position: optional sign, optional integer digits, optional dot, required
digits, optional exponent, with the backtracking the pattern's greedy
quantifiers perform (a dot not followed by a digit is given back). The
value models `lexical_cast<double>` of `what[1]` exactly over `ℚ`. -/
def decMatchAt (l : List Char) : Option (ℚ × Nat) :=
  let sgnPart : ℚ × Nat × List Char :=
    match l with
    | '-' :: r => (-1, 1, r)
    | '+' :: r => (1, 1, r)
    | _ => (1, 0, l)
  let sgn := sgnPart.1
  let slen := sgnPart.2.1
  let l1 := sgnPart.2.2
  let a := l1.takeWhile Char.isDigit
  let l2 := l1.dropWhile Char.isDigit
  match l2 with
  | '.' :: l3 =>
    let b := l3.takeWhile Char.isDigit
    if b ≠ [] then
      let l4 := l3.dropWhile Char.isDigit
      let ev := match expMatch l4 with
        | some (e, elen) => ((e : Int), elen)
        | none => ((0 : Int), 0)
      let mant : ℚ := (natOfDigits a : ℚ) + (natOfDigits b : ℚ) / (10 : ℚ) ^ b.length
      some (sgn * mant * (10 : ℚ) ^ (ev.1 : Int), slen + a.length + 1 + b.length + ev.2)
    else if a ≠ [] then
      some (sgn * (natOfDigits a : ℚ), slen + a.length)
    else none
  | _ =>
    if a ≠ [] then
      let ev := match expMatch l2 with
        | some (e, elen) => ((e : Int), elen)
        | none => ((0 : Int), 0)
      some (sgn * (natOfDigits a : ℚ) * (10 : ℚ) ^ (ev.1 : Int), slen + a.length + ev.2)
    else none

/-- Leftmost search for `rx_d`, adding the trailing `\s*` to the length
of `what[0]`. -/
def searchDecimalAux : List Char → Option (ℚ × Nat)
  | [] => none
  | c :: cs =>
    match decMatchAt (c :: cs) with
    | some (v, len) =>
      let ws := ((c :: cs).drop len).takeWhile isSpaceC
      some (v, len + ws.length)
    | none => searchDecimalAux cs

/-- Search for `rx_d` from the start of the line. -/
def searchDecimal (line : List Char) : Option (ℚ × Nat) :=
  searchDecimalAux line

/-- One vertex-property token of the ASCII decoder
(`ReaderPLY::ReadVertexes(std::istream&)`, `ReaderPLY.cpp:412-453`):
the lexical pattern is selected by the numeric kind; the stored value and
the consumed `what[0]` length are returned, `none` is the lexical
failure. -/
def matchNumber (num : Number) (line : List Char) : Option (ℚ × Nat) :=
  match num with
  | .int8 | .int16 | .int32 =>
      (searchSigned line).map (fun p => ((p.1 : ℚ), p.2))
  | .uint8 | .uint16 | .uint32 =>
      (searchUnsigned line).map (fun p => ((natOfDigits p.1 : ℚ), p.2))
  | .float32 | .float64 => searchDecimal line

/-- The per-record value buffer (`PropertyArray`), indexed by role. -/
def PropertyArray := PropKind → ℚ

/-- The value-initialized buffer `PropertyArray prop_values {}`. -/
def emptyProps : PropertyArray := fun _ => 0

/-- The model of `prop_values[it.first] = v`. -/
def setProp (a : PropertyArray) (p : PropKind) (v : ℚ) : PropertyArray :=
  fun q => if q = p then v else a q

/-- The inner loop over `vertex_props` for one ASCII vertex line: each
entry must match its pattern against the remaining line, which is then
shortened by `what[0].length()` from the front. -/
def processVertexLine : List (PropKind × Number) → PropertyArray → List Char →
    Option PropertyArray
  | [], buf, _ => some buf
  | (p, num) :: rest, buf, line =>
    match matchNumber num line with
    | none => none
    | some (v, len) => processVertexLine rest (setProp buf p v) (line.drop len)

/-- The model of `ReaderPLY::addVertexProperty` (`ReaderPLY.cpp:497-513`): push the
(x, y, z) point; when a material sink is present and bound per vertex,
also push the buffered color triple divided by 255. -/
def addVertexProperty (st : State) (prop : PropertyArray) : State :=
  let st1 := {st with meshPoints :=
    st.meshPoints ++ [(prop .coord_x, prop .coord_y, prop .coord_z)]}
  match st1.material with
  | some m =>
    if m.binding = .per_vertex then
      {st1 with material := some {m with diffuseColor := m.diffuseColor ++
        [(prop .color_r / 255, prop .color_g / 255, prop .color_b / 255)]}}
    else st1
  | none => st1

/-- The model of `ReaderPLY::ReadVertexes(std::istream&)`: up to `v_count` lines, each
decoded through `processVertexLine`; a lexical failure stops with
`false`, exhausted lines stop with `true`. -/
def readVertexesA : State → Nat → List (List Char) → State × List (List Char) × Bool
  | st, 0, lines => (st, lines, true)
  | st, _ + 1, [] => (st, [], true)
  | st, n + 1, line :: ls =>
    match processVertexLine st.vertex_props emptyProps line with
    | none => (st, ls, false)
    | some buf => readVertexesA (addVertexProperty st buf) n ls

/-- The anchored face-line pattern `rx_f` of
`ReaderPLY::ReadFaces(std::istream&)` (`ReaderPLY.cpp:464`):
`^\s*3\s+([0-9]+)\s+([0-9]+)\s+([0-9]+)\s*`, searched on the line;
content after the match is ignored. -/
def matchFaceLine (line : List Char) : Option (Nat × Nat × Nat) :=
  match line.dropWhile isSpaceC with
  | '3' :: l1 =>
    if l1.takeWhile isSpaceC = [] then none
    else
      let l2 := l1.dropWhile isSpaceC
      let d1 := l2.takeWhile Char.isDigit
      if d1 = [] then none
      else
        let l3 := l2.dropWhile Char.isDigit
        if l3.takeWhile isSpaceC = [] then none
        else
          let l4 := l3.dropWhile isSpaceC
          let d2 := l4.takeWhile Char.isDigit
          if d2 = [] then none
          else
            let l5 := l4.dropWhile Char.isDigit
            if l5.takeWhile isSpaceC = [] then none
            else
              let l6 := l5.dropWhile isSpaceC
              let d3 := l6.takeWhile Char.isDigit
              if d3 = [] then none
              else some (natOfDigits d1, natOfDigits d2, natOfDigits d3)
  | _ => none

/-- The model of `ReaderPLY::ReadFaces(std::istream&)` (`ReaderPLY.cpp:462-481`): up to
`f_count` lines; a matching line appends its indices unchecked, a
non-matching line is skipped; the loop never fails. -/
def readFacesA : State → Nat → List (List Char) → State × List (List Char) × Bool
  | st, 0, lines => (st, lines, true)
  | st, _ + 1, [] => (st, [], true)
  | st, n + 1, line :: ls =>
    match matchFaceLine line with
    | some t => readFacesA {st with meshFacets := st.meshFacets ++ [t]} n ls
    | none => readFacesA st n ls

/-- The model of `ReaderPLY::CleanupMesh` (`ReaderPLY.cpp:385-397`): hands the
accumulated arrays to the external cleanup collaborator (invalid-element
removal, adjacency and adoption are outside this core); the model records
that the handoff happened. -/
def cleanupMesh (st : State) : State := {st with handoffDone := true}

/-- The model of `ReaderPLY::LoadAscii` (`ReaderPLY.cpp:483-495`). -/
def loadAscii (st : State) (lines : List (List Char)) : State × Bool :=
  let st0 := {st with bodyEntered := true}
  let v := readVertexesA st0 st0.v_count lines
  if v.2.2 then
    let f := readFacesA v.1 v.1.f_count v.2.1
    if f.2.2 then (cleanupMesh f.1, true) else (f.1, false)
  else (v.1, false)

/-! ## Binary body decoding -/

/-- Two's-complement reading of a `w`-byte signed integer. -/
def decodeSInt (bo : ByteOrder) (w : Nat) (bs : List Nat) : Int :=
  let v := decodeUInt bo bs
  if v < 2 ^ (8 * w - 1) then (v : Int) else (v : Int) - 2 ^ (8 * w)

/-- One binary vertex value (`ReaderPLY::ReadVertexes(Base::InputStream&)`,
`ReaderPLY.cpp:515-571`): fixed-width reads widened/narrowed to the stored
value; the IEEE bit decodings of the two float kinds are abstracted as the
parameters `f32` and `f64`. -/
def readVertexValue (f32 f64 : List Nat → ℚ) (bo : ByteOrder) (num : Number)
    (s : List Nat) : Option (ℚ × List Nat) :=
  match num with
  | .int8 => (readBytes 1 s).map (fun p => ((decodeSInt bo 1 p.1 : ℚ), p.2))
  | .uint8 => (readBytes 1 s).map (fun p => ((decodeUInt bo p.1 : ℚ), p.2))
  | .int16 => (readBytes 2 s).map (fun p => ((decodeSInt bo 2 p.1 : ℚ), p.2))
  | .uint16 => (readBytes 2 s).map (fun p => ((decodeUInt bo p.1 : ℚ), p.2))
  | .int32 => (readBytes 4 s).map (fun p => ((decodeSInt bo 4 p.1 : ℚ), p.2))
  | .uint32 => (readBytes 4 s).map (fun p => ((decodeUInt bo p.1 : ℚ), p.2))
  | .float32 => (readBytes 4 s).map (fun p => (f32 p.1, p.2))
  | .float64 => (readBytes 8 s).map (fun p => (f64 p.1, p.2))

/-- The inner loop over `vertex_props` for one binary vertex record. -/
def processVertexRecordB (f32 f64 : List Nat → ℚ) (bo : ByteOrder) :
    List (PropKind × Number) → PropertyArray → List Nat →
    Option (PropertyArray × List Nat)
  | [], buf, s => some (buf, s)
  | (p, num) :: rest, buf, s =>
    match readVertexValue f32 f64 bo num s with
    | none => none
    | some (v, s') => processVertexRecordB f32 f64 bo rest (setProp buf p v) s'

/-- The model of `ReaderPLY::ReadVertexes(Base::InputStream&)`: `v_count` records; a
read past the end of the modelled stream fails. -/
def readVertexesB (f32 f64 : List Nat → ℚ) (bo : ByteOrder) :
    State → Nat → List Nat → Option (State × List Nat)
  | st, 0, s => some (st, s)
  | st, n + 1, s =>
    match processVertexRecordB f32 f64 bo st.vertex_props emptyProps s with
    | none => none
    | some (buf, s') => readVertexesB f32 f64 bo (addVertexProperty st buf) n s'

/-- The model of `ReaderPLY::LoadBinary` (`ReaderPLY.cpp:636-656`). -/
def loadBinary (f32 f64 : List Nat → ℚ) (st : State) (bytes : List Nat) :
    State × Bool :=
  let bo := if st.format = .binary_little_endian then ByteOrder.le else ByteOrder.be
  let st0 := {st with bodyEntered := true}
  match readVertexesB f32 f64 bo st0 st0.v_count bytes with
  | none => (st0, false)
  | some (st1, s1) =>
    match readFacesB bo st1.v_count st1.face_props st1.f_count s1 with
    | none => (st1, false)
    | some (fs, _) => (cleanupMesh {st1 with meshFacets := st1.meshFacets ++ fs}, true)

/-- The model of `ReaderPLY::CheckHeader` (`ReaderPLY.cpp:47-67`): the first three
characters must be `p`, `l`, `y` (one further character is skipped). -/
def checkHeader (magic : List Char) : Bool :=
  decide (3 ≤ magic.length) && (magic.take 3 == "ply".data)

/-- The model of `ReaderPLY::Load` (`ReaderPLY.cpp:361-383`): magic check, header,
vertex-schema validation, color-schema validation, then the body decoder
selected by the format (the ASCII body reads the lines remaining after
the header, the binary body reads `bytes`); on a failed stage the
partially built state is discarded by the caller. -/
def load (f32 f64 : List Nat → ℚ) (magic : List Char) (lines : List (List Char))
    (bytes : List Nat) (st : State) : State × Bool :=
  if !checkHeader magic then (st, false)
  else
    match readHeader st [] lines with
    | none => (st, false)
    | some (st1, rest) =>
      if !verifyVertexProperty st1.vertex_props then (st1, false)
      else
        match verifyColorProperty st1 with
        | none => (st1, false)
        | some st2 =>
          if st2.format = .ascii then loadAscii st2 rest
          else loadBinary f32 f64 st2 bytes

end ReaderPLY
namespace ReaderPLY

/-- Reading exactly the length of the left list splits an append. -/
theorem readBytes_exact (l r : List Nat) : readBytes l.length (l ++ r) = some (l, r) := by
  simp [readBytes, List.take_left, List.drop_left]

/-- C1: a binary face record with count 3 whose index triple fails the
bounds check against the vertex count appends no facet, but leaves the
byte cursor exactly where the keep-the-facet variant would (the indices
and every `FacePropertySpec` entry are still read), so the remaining
records decode from the same positions. -/
theorem binary_face_drop_preserves_cursor
    (bo : ByteOrder) (vc : Nat) (fps : List Number) (s s' : List Nat)
    (t : Nat × Nat × Nat)
    (hkeep : readFaceRecordKeep bo fps s = some ([t], s'))
    (hoob : ¬(t.1 < vc ∧ t.2.1 < vc ∧ t.2.2 < vc)) :
    readFaceRecord bo vc fps s = some ([], s') ∧
    ∀ k fs2 s2, readFacesB bo vc fps k s' = some (fs2, s2) →
      readFacesB bo vc fps (k + 1) s = some (fs2, s2) := by
  simp only [readFaceRecordKeep, bind, Option.bind] at hkeep
  cases h1 : readBytes 1 s with
  | none => simp [h1] at hkeep
  | some p1 =>
    obtain ⟨nb, s1⟩ := p1
    simp only [h1] at hkeep
    by_cases hn : decodeUInt bo nb = 3
    · rw [if_pos hn] at hkeep
      cases h2 : readBytes 4 s1 with
      | none => simp [h2] at hkeep
      | some p2 =>
        obtain ⟨b1, s2⟩ := p2
        simp only [h2] at hkeep
        cases h3 : readBytes 4 s2 with
        | none => simp [h3] at hkeep
        | some p3 =>
          obtain ⟨b2, s3⟩ := p3
          simp only [h3] at hkeep
          cases h4 : readBytes 4 s3 with
          | none => simp [h4] at hkeep
          | some p4 =>
            obtain ⟨b3, s4⟩ := p4
            simp only [h4] at hkeep
            cases h5 : skipFaceProps bo fps s4 with
            | none => simp [h5] at hkeep
            | some s5 =>
              simp only [h5] at hkeep
              simp only [pure, Option.some_inj] at hkeep
              obtain ⟨ht, hs⟩ := Prod.mk.injEq .. ▸ hkeep
              have ht' : (decodeUInt bo b1, decodeUInt bo b2, decodeUInt bo b3) = t := by
                    have := List.cons.injEq .. ▸ ht
                    exact this.1
              have e1 : decodeUInt bo b1 = t.1 := by rw [← ht']
              have e2 : decodeUInt bo b2 = t.2.1 := by rw [← ht']
              have e3 : decodeUInt bo b3 = t.2.2 := by rw [← ht']
              constructor
              · simp only [readFaceRecord, bind, Option.bind, h1, h2, h3, h4, h5, if_pos hn,
                  e1, e2, e3]
                simp [if_neg hoob, hs]
              · intro k fs2 s2 hk
                simp only [readFacesB, readFaceRecord, bind, Option.bind, h1, h2, h3, h4, h5,
                  if_pos hn, e1, e2, e3]
                simp [if_neg hoob, hs, hk]
    · rw [if_neg hn] at hkeep
      simp [pure] at hkeep

end ReaderPLY

namespace ReaderPLY

theorem binary_face_drop_preserves_cursor_witness :
    readFaceRecord .le 1 [] [3, 5, 0, 0, 0, 0, 0, 0, 0, 0, 0, 0, 0] = some ([], []) :=
  (binary_face_drop_preserves_cursor .le 1 [] [3, 5, 0, 0, 0, 0, 0, 0, 0, 0, 0, 0, 0] []
    (5, 0, 0) (by decide) (by decide)).1

/-- C2 counterexample: a face record with count 2 and one declared
`uint8` face property; the code leaves the property byte (99) in the
stream, while the claim's reading (`claimedFaceRecordRest`) consumes it. -/
theorem binary_face_props_counterexample :
    (readFaceRecord .le 10 [.uint8] [2, 99]).map Prod.snd = some [99] ∧
    claimedFaceRecordRest .le [.uint8] [2, 99] = some [] ∧
    ([99] : List Nat) ≠ [] := by decide

/-- C2 (amended): every entry of `FacePropertySpec` is read and discarded
in declared order after the index triple when the count is 3; when the
count is not 3, only the count byte is consumed and no `FacePropertySpec`
entry is read. -/
theorem binary_face_props_consumed_only_when_triangle
    (bo : ByteOrder) (vc : Nat) (fps : List Number) :
    (∀ b s, decodeUInt bo [b] ≠ 3 →
      readFaceRecord bo vc fps (b :: s) = some ([], s)) ∧
    (∀ b i1 i2 i3 rest, decodeUInt bo [b] = 3 →
      i1.length = 4 → i2.length = 4 → i3.length = 4 →
      readFaceRecord bo vc fps (b :: (i1 ++ i2 ++ i3 ++ rest)) =
        (skipFaceProps bo fps rest).map (fun r =>
          (if decodeUInt bo i1 < vc ∧ decodeUInt bo i2 < vc ∧ decodeUInt bo i3 < vc
            then [(decodeUInt bo i1, decodeUInt bo i2, decodeUInt bo i3)] else [], r))) := by
  have hb : ∀ (b : Nat) (s : List Nat), readBytes 1 (b :: s) = some ([b], s) := by
    intro b s; simp [readBytes]
  constructor
  · intro b s hn
    simp [readFaceRecord, hb, bind, Option.bind, if_neg hn, pure]
  · intro b i1 i2 i3 rest hn l1 l2 l3
    have r1 : readBytes 4 (i1 ++ (i2 ++ (i3 ++ rest))) = some (i1, i2 ++ (i3 ++ rest)) := by
      rw [← l1]; exact readBytes_exact i1 (i2 ++ (i3 ++ rest))
    have r2 : readBytes 4 (i2 ++ (i3 ++ rest)) = some (i2, i3 ++ rest) := by
      rw [← l2]; exact readBytes_exact i2 (i3 ++ rest)
    have r3 : readBytes 4 (i3 ++ rest) = some (i3, rest) := by
      rw [← l3]; exact readBytes_exact i3 rest
    simp only [readFaceRecord, bind, Option.bind, hb, List.append_assoc, r1, r2, r3,
      if_pos hn]
    cases hsk : skipFaceProps bo fps rest with
    | none => simp
    | some r => simp [pure]

theorem binary_face_props_consumed_only_when_triangle_witness :
    readFaceRecord .le 5 [.uint8] [7, 42] = some ([], [42]) :=
  (binary_face_props_consumed_only_when_triangle .le 5 [.uint8]).1 7 [42] (by decide)


end ReaderPLY

namespace ReaderPLY


/-- Helper: `addVertexProperty` appends exactly one point. -/
theorem addVertexProperty_meshPoints (st : State) (b : PropertyArray) :
    (addVertexProperty st b).meshPoints =
      st.meshPoints ++ [(b .coord_x, b .coord_y, b .coord_z)] := by
  unfold addVertexProperty
  cases st.material with
  | none => rfl
  | some m =>
    by_cases h : m.binding = .per_vertex
    · simp [h]
    · simp [h]

theorem addVertexProperty_vertex_props (st : State) (b : PropertyArray) :
    (addVertexProperty st b).vertex_props = st.vertex_props := by
  unfold addVertexProperty
  cases st.material with
  | none => rfl
  | some m =>
    by_cases h : m.binding = .per_vertex
    · simp [h]
    · simp [h]

theorem addVertexProperty_handoffDone (st : State) (b : PropertyArray) :
    (addVertexProperty st b).handoffDone = st.handoffDone := by
  unfold addVertexProperty
  cases st.material with
  | none => rfl
  | some m =>
    by_cases h : m.binding = .per_vertex
    · simp [h]
    · simp [h]

/-- The ASCII face loop appends exactly the matches of the pattern, in
file order, consumes up to `f_count` lines and always succeeds. -/
theorem readFacesA_eq (fc : Nat) (st : State) (lines : List (List Char)) :
    readFacesA st fc lines =
      ({st with meshFacets := st.meshFacets ++ (lines.take fc).filterMap matchFaceLine},
        lines.drop fc, true) := by
  induction fc generalizing st lines with
  | zero => simp [readFacesA]
  | succ n ih =>
    cases lines with
    | nil => simp [readFacesA]
    | cons l ls =>
      cases h : matchFaceLine l with
      | none => simp [readFacesA, h, ih]
      | some t => simp [readFacesA, h, ih]

/-- C3: in the ASCII body decoder every face line matching the anchored
pattern `3` + three unsigned-integer tokens appends a facet with exactly
those indices, with no bounds check against the vertex count (the result
does not depend on `v_count` at all, so `3 0 1 2` yields facet (0,1,2)
even when an index is out of range); non-matching lines append nothing,
raise no error, and the whole decode succeeds. -/
theorem ascii_face_lines_unchecked_and_nonfatal :
    (∀ (st : State) (fc : Nat) (lines : List (List Char)),
      readFacesA st fc lines =
        ({st with meshFacets := st.meshFacets ++ (lines.take fc).filterMap matchFaceLine},
          lines.drop fc, true)) ∧
    matchFaceLine "3 0 1 2".data = some (0, 1, 2) ∧
    matchFaceLine "not a face".data = none :=
  ⟨fun st fc lines => readFacesA_eq fc st lines, by decide, by decide⟩

theorem readElement_preserves (st : State) (s : List Char) (st' : State) (e' : List Char)
    (h : readElement st s = some (st', e')) :
    st'.bodyEntered = st.bodyEntered ∧ st'.handoffDone = st.handoffDone := by
  simp only [readElement] at h
  split at h
  · split at h
    · simp only [Option.some.injEq, Prod.mk.injEq] at h
      obtain ⟨h1, _⟩ := h
      subst h1
      exact ⟨rfl, rfl⟩
    · split at h
      · simp only [Option.some.injEq, Prod.mk.injEq] at h
        obtain ⟨h1, _⟩ := h
        subst h1
        exact ⟨rfl, rfl⟩
      · simp only [Option.some.injEq, Prod.mk.injEq] at h
        obtain ⟨h1, _⟩ := h
        subst h1
        exact ⟨rfl, rfl⟩
  · cases h

theorem readVertexPropertyLine_preserves (st : State) (s : List Char) (st' : State)
    (h : readVertexPropertyLine st s = some st') :
    st'.bodyEntered = st.bodyEntered ∧ st'.handoffDone = st.handoffDone := by
  simp only [readVertexPropertyLine] at h
  split at h
  · cases h
  · simp only [Option.some.injEq] at h
    subst h
    exact ⟨rfl, rfl⟩

theorem readFacePropertyLine_preserves (st : State) (s : List Char) (st' : State)
    (h : readFacePropertyLine st s = some st') :
    st'.bodyEntered = st.bodyEntered ∧ st'.handoffDone = st.handoffDone := by
  simp only [readFacePropertyLine] at h
  split at h
  all_goals
    split at h
  case isTrue.isTrue | isFalse.isTrue =>
    simp only [Option.some.injEq] at h
    subst h
    exact ⟨rfl, rfl⟩
  all_goals
    split at h
  case isTrue.isFalse.h_1 | isFalse.isFalse.h_1 => cases h
  all_goals
    simp only [Option.some.injEq] at h
    subst h
    exact ⟨rfl, rfl⟩

theorem headerStep_preserves (st : State) (elem line : List Char) (st' : State)
    (e' : List Char) (h : headerStep st elem line = some (st', e')) :
    st'.bodyEntered = st.bodyEntered ∧ st'.handoffDone = st.handoffDone := by
  simp only [headerStep] at h
  split at h
  · simp only [Option.some.injEq, Prod.mk.injEq] at h
    obtain ⟨h1, _⟩ := h
    subst h1
    exact ⟨rfl, rfl⟩
  · split at h
    · split at h
      · cases h
      · simp only [Option.some.injEq, Prod.mk.injEq] at h
        obtain ⟨h1, _⟩ := h
        subst h1
        exact ⟨rfl, rfl⟩
    · split at h
      · exact readElement_preserves st _ st' e' h
      · split at h
        · simp only [readPropertyLine] at h
          split at h
          · cases hv : readVertexPropertyLine st _ with
            | none => rw [hv] at h; cases h
            | some s2 =>
              rw [hv] at h
              simp only [Option.map_some', Option.some.injEq, Prod.mk.injEq] at h
              obtain ⟨h1, _⟩ := h
              subst h1
              exact readVertexPropertyLine_preserves st _ s2 hv
          · split at h
            · cases hv : readFacePropertyLine st _ with
              | none => rw [hv] at h; cases h
              | some s2 =>
                rw [hv] at h
                simp only [Option.map_some', Option.some.injEq, Prod.mk.injEq] at h
                obtain ⟨h1, _⟩ := h
                subst h1
                exact readFacePropertyLine_preserves st _ s2 hv
            · simp only [Option.map_some', Option.some.injEq, Prod.mk.injEq] at h
              obtain ⟨h1, _⟩ := h
              subst h1
              exact ⟨rfl, rfl⟩
        · simp only [Option.some.injEq, Prod.mk.injEq] at h
          obtain ⟨h1, _⟩ := h
          subst h1
          exact ⟨rfl, rfl⟩

theorem readHeader_preserves (lines : List (List Char)) (st : State) (elem : List Char)
    (st' : State) (rest : List (List Char))
    (h : readHeader st elem lines = some (st', rest)) :
    st'.bodyEntered = st.bodyEntered ∧ st'.handoffDone = st.handoffDone := by
  induction lines generalizing st elem with
  | nil =>
    simp only [readHeader, Option.some.injEq, Prod.mk.injEq] at h
    obtain ⟨h1, _⟩ := h
    subst h1
    exact ⟨rfl, rfl⟩
  | cons l ls ih =>
    simp only [readHeader] at h
    split at h
    · simp only [Option.some.injEq, Prod.mk.injEq] at h
      obtain ⟨h1, _⟩ := h
      subst h1
      exact ⟨rfl, rfl⟩
    · cases hs : headerStep st elem l with
      | none => rw [hs] at h; cases h
      | some p =>
        rw [hs] at h
        obtain ⟨st1, e1⟩ := p
        have h1 := headerStep_preserves st elem l st1 e1 hs
        have h2 := ih st1 e1 h
        exact ⟨h2.1.trans h1.1, h2.2.trans h1.2⟩


/-- C4: vertex-schema validation succeeds if and only if the schema has
exactly one coord-x, one coord-y and one coord-z entry; when it rejects,
the load fails without entering a body decoder. -/
theorem vertex_schema_validation :
    (∀ props, verifyVertexProperty props = true ↔
      (countProp props .coord_x = 1 ∧ countProp props .coord_y = 1 ∧
        countProp props .coord_z = 1)) ∧
    (∀ (f32 f64 : List Nat → ℚ) (magic : List Char) (lines : List (List Char))
      (bytes : List Nat) (st st1 : State) (rest : List (List Char)),
      checkHeader magic = true →
      readHeader st [] lines = some (st1, rest) →
      verifyVertexProperty st1.vertex_props = false →
      load f32 f64 magic lines bytes st = (st1, false) ∧
        st1.bodyEntered = st.bodyEntered) := by
  constructor
  · intro props
    simp [verifyVertexProperty, Bool.and_eq_true, and_assoc]
  · intro f32 f64 magic lines bytes st st1 rest hmagic hread hver
    refine ⟨?_, (readHeader_preserves lines st [] st1 rest hread).1⟩
    simp [load, hmagic, hread, hver]

theorem vertex_schema_validation_witness :
    load (fun _ => 0) (fun _ => 0) "ply!".data
      (["format ascii 1.0", "element vertex 1", "property float x",
        "property float y"].map String.data) [] (initState none) =
      ({initState none with
        v_count := 1,
        vertex_props := [(.coord_x, .float32), (.coord_y, .float32)]}, false) ∧
    ({initState none with
        v_count := 1,
        vertex_props := [(.coord_x, .float32), (.coord_y, .float32)]} : State).bodyEntered =
      (initState none).bodyEntered :=
  vertex_schema_validation.2 (fun _ => 0) (fun _ => 0) "ply!".data
    (["format ascii 1.0", "element vertex 1", "property float x",
      "property float y"].map String.data) [] (initState none)
    {initState none with
      v_count := 1,
      vertex_props := [(.coord_x, .float32), (.coord_y, .float32)]} []
    (by decide) (by decide) (by decide)


/-- C5: color-schema validation succeeds if and only if the total number
of color-role entries is 0 or 3; totals 1 and 2 make the whole load fail
without entering a body decoder. -/
theorem color_schema_validation :
    (∀ st : State, (verifyColorProperty st).isSome = true ↔
      (rgbCount st.vertex_props = 0 ∨ rgbCount st.vertex_props = 3)) ∧
    (∀ (f32 f64 : List Nat → ℚ) (magic : List Char) (lines : List (List Char))
      (bytes : List Nat) (st st1 : State) (rest : List (List Char)),
      checkHeader magic = true →
      readHeader st [] lines = some (st1, rest) →
      (rgbCount st1.vertex_props = 1 ∨ rgbCount st1.vertex_props = 2) →
      load f32 f64 magic lines bytes st = (st1, false) ∧
        st1.bodyEntered = st.bodyEntered) := by
  constructor
  · intro st
    simp only [verifyColorProperty]
    by_cases hc : rgbCount st.vertex_props ≠ 0 ∧ rgbCount st.vertex_props ≠ 3
    · rw [if_pos hc]
      simp only [Option.isSome_none, Bool.false_eq_true, false_iff]
      omega
    · rw [if_neg hc]
      have hd : rgbCount st.vertex_props = 0 ∨ rgbCount st.vertex_props = 3 := by
        by_contra hne
        exact hc ⟨fun e => hne (Or.inl e), fun e => hne (Or.inr e)⟩
      simp only [hd, iff_true]
      split
      · cases st.material <;> simp
      · simp
  · intro f32 f64 magic lines bytes st st1 rest hmagic hread hc
    have hnone : verifyColorProperty st1 = none := by
      simp only [verifyColorProperty]
      rw [if_pos ⟨by omega, by omega⟩]
    refine ⟨?_, (readHeader_preserves lines st [] st1 rest hread).1⟩
    by_cases hver : verifyVertexProperty st1.vertex_props
    · simp [load, hmagic, hread, hver, hnone]
    · simp [load, hmagic, hread, Bool.of_not_eq_true hver]

theorem color_schema_validation_witness :
    load (fun _ => 0) (fun _ => 0) "ply!".data
      (["format ascii 1.0", "element vertex 1", "property float x",
        "property float y", "property float z", "property uchar red"].map String.data)
      [] (initState none) =
      ({initState none with
        v_count := 1,
        vertex_props := [(.coord_x, .float32), (.coord_y, .float32),
          (.coord_z, .float32), (.color_r, .uint8)]}, false) ∧
    ({initState none with
        v_count := 1,
        vertex_props := [(.coord_x, .float32), (.coord_y, .float32),
          (.coord_z, .float32), (.color_r, .uint8)]} : State).bodyEntered =
      (initState none).bodyEntered :=
  color_schema_validation.2 (fun _ => 0) (fun _ => 0) "ply!".data
    (["format ascii 1.0", "element vertex 1", "property float x",
      "property float y", "property float z", "property uchar red"].map String.data)
    [] (initState none)
    {initState none with
      v_count := 1,
      vertex_props := [(.coord_x, .float32), (.coord_y, .float32),
        (.coord_z, .float32), (.color_r, .uint8)]} []
    (by decide) (by decide) (by decide)


/-- With per-vertex binding active, one `addVertexProperty` call appends
the normalized color triple to the sink. -/
theorem addVertexProperty_material_pv (st : State) (m : Material) (b : PropertyArray)
    (hm : st.material = some m) (hb : m.binding = .per_vertex) :
    (addVertexProperty st b).material =
      some {m with
        diffuseColor := m.diffuseColor ++
          [(b .color_r / 255, b .color_g / 255, b .color_b / 255)]} := by
  unfold addVertexProperty
  simp [hm, hb]

/-- With per-vertex binding active, the record-assembler loop appends one
point and one normalized color triple per buffer, in the same order. -/
theorem foldl_addVertexProperty_pv (bufs : List PropertyArray) (st : State) (m : Material)
    (hm : st.material = some m) (hb : m.binding = .per_vertex) :
    (bufs.foldl addVertexProperty st).meshPoints =
      st.meshPoints ++ bufs.map (fun b => (b .coord_x, b .coord_y, b .coord_z)) ∧
    (bufs.foldl addVertexProperty st).material =
      some {m with
        diffuseColor := m.diffuseColor ++
          bufs.map (fun b => (b .color_r / 255, b .color_g / 255, b .color_b / 255))} := by
  induction bufs generalizing st m with
  | nil => simp [hm]
  | cons b bs ih =>
    simp only [List.foldl_cons, List.map_cons]
    have h1 := addVertexProperty_meshPoints st b
    have h2 := addVertexProperty_material_pv st m b hm hb
    have ih2 := ih (addVertexProperty st b)
      {m with
        diffuseColor := m.diffuseColor ++
          [(b .color_r / 255, b .color_g / 255, b .color_b / 255)]} h2 hb
    constructor
    · rw [ih2.1, h1]
      simp
    · rw [ih2.2]
      simp

/-- C6: a schema with exactly three color-role entries and a present
material sink activates per-vertex binding, and the assembler then
appends, per decoded vertex and in point order, the buffered color triple
with each channel divided by 255. -/
theorem per_vertex_color_binding (st : State) (m : Material) (bufs : List PropertyArray)
    (hm : st.material = some m) (h3 : rgbCount st.vertex_props = 3) :
    verifyColorProperty st =
      some {st with material := some {m with binding := .per_vertex}} ∧
    (bufs.foldl addVertexProperty
        {st with material := some {m with binding := .per_vertex}}).meshPoints =
      st.meshPoints ++ bufs.map (fun b => (b .coord_x, b .coord_y, b .coord_z)) ∧
    (bufs.foldl addVertexProperty
        {st with material := some {m with binding := .per_vertex}}).material =
      some {m with
        binding := .per_vertex,
        diffuseColor := m.diffuseColor ++
          bufs.map (fun b => (b .color_r / 255, b .color_g / 255, b .color_b / 255))} := by
  have hv : verifyColorProperty st =
      some {st with material := some {m with binding := .per_vertex}} := by
    simp [verifyColorProperty, h3, hm]
  have hfold := foldl_addVertexProperty_pv bufs
    {st with material := some {m with binding := .per_vertex}}
    {m with binding := .per_vertex} rfl rfl
  exact ⟨hv, hfold.1, hfold.2⟩

theorem per_vertex_color_binding_witness :
    (([fun _ => (255 : ℚ)] : List PropertyArray).foldl addVertexProperty
      {initState (some {binding := .per_vertex, diffuseColor := []}) with
        vertex_props := [(.color_r, .uint8), (.color_g, .uint8), (.color_b, .uint8)]}).material =
      some {binding := .per_vertex, diffuseColor := [((1 : ℚ), (1 : ℚ), (1 : ℚ))]} :=
  Eq.trans
    (per_vertex_color_binding
      {initState (some {binding := .overall, diffuseColor := []}) with
        vertex_props := [(.color_r, .uint8), (.color_g, .uint8), (.color_b, .uint8)]}
      {binding := .overall, diffuseColor := []}
      [fun _ => (255 : ℚ)] rfl (by decide)).2.2
    (by norm_num)

end ReaderPLY

namespace ReaderPLY

/-- Helper: `dropWhile` passes over a prefix that wholly satisfies the predicate. -/
theorem dropWhile_append_of_all {α : Type} (p : α → Bool) (l1 l2 : List α)
    (h : ∀ c ∈ l1, p c = true) :
    (l1 ++ l2).dropWhile p = l2.dropWhile p := by
  induction l1 with
  | nil => rfl
  | cons a l ih =>
    simp only [List.cons_append, List.dropWhile_cons, h a (by simp)]
    exact ih (fun c hc => h c (by simp [hc]))

/-- Helper: `skipWs` drops a whitespace run. -/
theorem skipWs_append_of_all (w l : List Char) (h : ∀ c ∈ w, isSpaceC c = true) :
    skipWs (w ++ l) = skipWs l :=
  dropWhile_append_of_all _ w l h

/-- Helper: `skipWs` keeps a list whose head is not whitespace. -/
theorem skipWs_of_head_not_space (l : List Char)
    (h : ∀ c, l.head? = some c → isSpaceC c = false) : skipWs l = l := by
  cases l with
  | nil => rfl
  | cons a as => simp [skipWs, List.dropWhile_cons, h a rfl]

/-- Helper: `readToken` of a non-whitespace token followed by whitespace (or the
end of the line) returns the token and the rest. -/
theorem readToken_of_append (tok rest : List Char)
    (htok : ∀ c ∈ tok, isSpaceC c = false)
    (hrest : ∀ c, rest.head? = some c → isSpaceC c = true) :
    readToken (tok ++ rest) = (tok, rest) := by
  induction tok with
  | nil =>
    cases rest with
    | nil => rfl
    | cons r rs =>
      simp [readToken, List.takeWhile_cons, List.dropWhile_cons, hrest r rfl]
  | cons a l ih =>
    have ha := htok a (by simp)
    have ih2 := ih (fun c hc => htok c (by simp [hc]))
    simp only [readToken] at ih2 ⊢
    have ht := congrArg Prod.fst ih2
    have hd := congrArg Prod.snd ih2
    simp only at ht hd
    simp [List.takeWhile_cons, List.dropWhile_cons, ha, ht, hd]


/-- C7: on a well-formed `format` line remainder (whitespace run, name
token, whitespace run, version token) the parse succeeds exactly when the
name is one of the three recognized formats and the version token equals
`1.0`, and on success it records the corresponding mode. -/
theorem format_line_validation
    (c1 c2 : Char) (w1 w2 fmt ver : List Char) (m : FormatMode)
    (hc1 : isSpaceC c1 = true) (hw1 : ∀ c ∈ w1, isSpaceC c = true)
    (hc2 : isSpaceC c2 = true) (hw2 : ∀ c ∈ w2, isSpaceC c = true)
    (hfmt0 : fmt ≠ []) (hfmt : ∀ c ∈ fmt, isSpaceC c = false)
    (hver : ∀ c ∈ ver, isSpaceC c = false) :
    readFormat (c1 :: (w1 ++ fmt ++ (c2 :: w2) ++ ver)) = some m ↔
      (formatOfName fmt = some m ∧ ver = "1.0".data) := by
  have e1 : skipWs (w1 ++ fmt ++ (c2 :: w2) ++ ver) = fmt ++ (c2 :: (w2 ++ ver)) := by
    rw [List.append_assoc, List.append_assoc, skipWs_append_of_all _ _ hw1,
      List.cons_append]
    apply skipWs_of_head_not_space
    intro c hc
    cases fmt with
    | nil => exact absurd rfl hfmt0
    | cons f fs =>
      simp only [List.cons_append, List.head?_cons, Option.some.injEq] at hc
      exact hc ▸ hfmt f (by simp)
  have e2 : readToken (fmt ++ (c2 :: (w2 ++ ver))) = (fmt, c2 :: (w2 ++ ver)) := by
    apply readToken_of_append fmt _ hfmt
    intro c hc
    simp only [List.head?_cons, Option.some.injEq] at hc
    exact hc ▸ hc2
  have e3 : skipWs (w2 ++ ver) = ver := by
    rw [skipWs_append_of_all _ _ hw2]
    apply skipWs_of_head_not_space
    intro c hc
    cases ver with
    | nil => cases hc
    | cons v vs =>
      simp only [List.head?_cons, Option.some.injEq] at hc
      exact hc ▸ hver v (by simp)
  have e4 : readToken ver = (ver, []) := by
    have h := readToken_of_append ver [] hver (fun c hc => by cases hc)
    simpa using h
  simp only [readFormat, readChar, e1, e2, List.cons_append, e3, e4, hc1, hc2,
    Bool.and_self, if_true]
  cases hF : formatOfName fmt with
  | none => simp [hF]
  | some f =>
    by_cases hv : ver = "1.0".data
    · simp [hF, hv]
    · simp [hF, hv]

theorem format_line_validation_witness :
    readFormat (' ' :: (([] : List Char) ++ "binary_big_endian".data ++
      (' ' :: ([] : List Char)) ++ "1.0".data)) = some FormatMode.binary_big_endian :=
  (format_line_validation ' ' ' ' [] [] "binary_big_endian".data "1.0".data
    FormatMode.binary_big_endian (by decide) (by simp) (by decide) (by simp)
    (by decide) (by decide) (by decide)).mpr ⟨by decide, rfl⟩


/-- C8: when the lines run out before any `end_header` line and every
line processed without failure, the header phase still returns success. -/
theorem header_missing_terminator_is_success
    (st : State) (elem : List Char) (lines : List (List Char)) (st' : State)
    (e' : List Char)
    (hterm : ∀ l ∈ lines, headerLineKw l ≠ some "end_header".data)
    (hok : headerSteps st elem lines = some (st', e')) :
    readHeader st elem lines = some (st', []) := by
  induction lines generalizing st elem with
  | nil =>
    simp only [headerSteps, Option.some.injEq, Prod.mk.injEq] at hok
    simp [readHeader, hok.1]
  | cons l ls ih =>
    have hl : ¬(headerLineKw l = some "end_header".data) := hterm l (by simp)
    simp only [headerSteps] at hok
    simp only [readHeader, if_neg hl]
    cases hs : headerStep st elem l with
    | none =>
      simp only [hs] at hok
      cases hok
    | some p =>
      simp only [hs] at hok
      obtain ⟨st1, e1⟩ := p
      exact ih st1 e1 (fun l2 h2 => hterm l2 (by simp [h2])) hok

theorem header_missing_terminator_is_success_witness :
    readHeader (initState none) []
      (["format ascii 1.0", "element vertex 2"].map String.data) =
      some ({initState none with v_count := 2}, []) :=
  header_missing_terminator_is_success (initState none) []
    (["format ascii 1.0", "element vertex 2"].map String.data)
    {initState none with v_count := 2} "vertex".data (by decide) (by decide)


/-- The ASCII vertex loop never touches the handoff flag. -/
theorem readVertexesA_handoffDone (n : Nat) (lines : List (List Char)) (st : State) :
    ((readVertexesA st n lines).1).handoffDone = st.handoffDone := by
  induction n generalizing st lines with
  | zero => rfl
  | succ k ih =>
    cases lines with
    | nil => rfl
    | cons l ls =>
      simp only [readVertexesA]
      cases h : processVertexLine st.vertex_props emptyProps l with
      | none => rfl
      | some buf =>
        simp only []
        rw [ih ls (addVertexProperty st buf)]
        exact addVertexProperty_handoffDone st buf

/-- C9: a lexical failure in the ASCII vertex decoder makes the whole
ASCII load return failure at once, with the state as it was at the
failing line and the downstream handoff never invoked. -/
theorem ascii_lexical_failure_aborts_load
    (st : State) (lines : List (List Char)) (st1 : State) (rest : List (List Char))
    (hfail : readVertexesA {st with bodyEntered := true} st.v_count lines =
      (st1, rest, false)) :
    loadAscii st lines = (st1, false) ∧ st1.handoffDone = st.handoffDone := by
  constructor
  · simp only [loadAscii, hfail]
    simp
  · have h := readVertexesA_handoffDone st.v_count lines {st with bodyEntered := true}
    rw [hfail] at h
    exact h

theorem ascii_lexical_failure_aborts_load_witness :
    loadAscii {initState none with
      v_count := 1,
      vertex_props := [(.coord_x, .float32)]} ["abc".data] =
      ({initState none with
        v_count := 1,
        vertex_props := [(.coord_x, .float32)],
        bodyEntered := true}, false) ∧
    ({initState none with
      v_count := 1,
      vertex_props := [(.coord_x, .float32)],
      bodyEntered := true} : State).handoffDone =
      ({initState none with
        v_count := 1,
        vertex_props := [(.coord_x, .float32)]} : State).handoffDone :=
  ascii_lexical_failure_aborts_load
    {initState none with
      v_count := 1,
      vertex_props := [(.coord_x, .float32)]} ["abc".data]
    {initState none with
      v_count := 1,
      vertex_props := [(.coord_x, .float32)],
      bodyEntered := true} [] (by decide)

/-- A truncated run of the ASCII vertex loop: all available lines decode,
the loop stops and reports success. -/
theorem readVertexesA_truncated (n : Nat) (lines : List (List Char)) (st : State)
    (hlen : lines.length < n)
    (hok : ∀ l ∈ lines, (processVertexLine st.vertex_props emptyProps l).isSome = true) :
    ∃ st1, readVertexesA st n lines = (st1, [], true) ∧
      st1.meshPoints.length = st.meshPoints.length + lines.length := by
  induction lines generalizing n st with
  | nil =>
    cases n with
    | zero => omega
    | succ k => exact ⟨st, rfl, by simp⟩
  | cons l ls ih =>
    cases n with
    | zero => omega
    | succ k =>
      cases h : processVertexLine st.vertex_props emptyProps l with
      | none =>
        have := hok l (by simp)
        rw [h] at this
        cases this
      | some buf =>
        have hok2 : ∀ l2 ∈ ls,
            (processVertexLine (addVertexProperty st buf).vertex_props emptyProps l2).isSome
              = true := by
          intro l2 h2
          rw [addVertexProperty_vertex_props]
          exact hok l2 (by simp [h2])
        obtain ⟨st1, he, hlen1⟩ := ih k (addVertexProperty st buf)
          (by simp at hlen; omega) hok2
        refine ⟨st1, ?_, ?_⟩
        · simp only [readVertexesA, h, he]
        · rw [hlen1, addVertexProperty_meshPoints]
          simp
          omega

/-- C10: a truncated ASCII body is not an error: with fewer lines than
the declared counts the vertex loop decodes every available line and
succeeds with that many points, and the face loop consumes every
available line and succeeds with at most that many facets. -/
theorem ascii_truncated_body_is_success :
    (∀ (st : State) (lines : List (List Char)),
      lines.length < st.v_count →
      (∀ l ∈ lines, (processVertexLine st.vertex_props emptyProps l).isSome = true) →
      ∃ st1, readVertexesA st st.v_count lines = (st1, [], true) ∧
        st1.meshPoints.length = st.meshPoints.length + lines.length) ∧
    (∀ (st : State) (lines : List (List Char)),
      lines.length < st.f_count →
      readFacesA st st.f_count lines =
        ({st with meshFacets := st.meshFacets ++ lines.filterMap matchFaceLine},
          [], true) ∧
        (lines.filterMap matchFaceLine).length ≤ lines.length) := by
  constructor
  · intro st lines h1 h2
    exact readVertexesA_truncated st.v_count lines st h1 h2
  · intro st lines h1
    have h := readFacesA_eq st.f_count st lines
    rw [List.take_of_length_le (by omega), List.drop_eq_nil_of_le (by omega)] at h
    exact ⟨h, List.length_filterMap_le _ _⟩

theorem ascii_truncated_body_is_success_witness :
    ∃ st1, readVertexesA {initState none with
        v_count := 2,
        vertex_props := [(.coord_x, .float32)]}
      ({initState none with
        v_count := 2,
        vertex_props := [(.coord_x, .float32)]} : State).v_count ["1.0".data] =
        (st1, [], true) ∧
      st1.meshPoints.length = ({initState none with
        v_count := 2,
        vertex_props := [(.coord_x, .float32)]} : State).meshPoints.length +
        (["1.0".data] : List (List Char)).length :=
  ascii_truncated_body_is_success.1
    {initState none with
      v_count := 2,
      vertex_props := [(.coord_x, .float32)]} ["1.0".data] (by decide) (by decide)

end ReaderPLY
